import Mathlib

/-!
# Verification of the `part1/pass.cpp` origin-tracing pass

A shallow embedding of the LLVM skeleton pass in `src/part1/pass.cpp`.
The LLVM IR is modelled as a graph of numbered nodes: each `NodeId`
resolves (through a `Graph`) to a `ValueDesc` describing what the C++
`dyn_cast` chain can observe about the `llvm::Value`: argument, global
variable, plain constant, function, or instruction (with its opcode
class, operand list, optional debug location and optional debug-declare
variable name).

The pass's helper routines are translated one to one:

* `printSourceLocation` (pass.cpp:13-25) — resolves a source location;
* `traceVariableOrigin` (pass.cpp:158-197) — the recursive backward walk;
* `traceVariableDeclaration` (pass.cpp:104-156) — the operand-0 walk,
  whose loop body is `declWalk`;
* `findConditionDefinition` (pass.cpp:68-101) — the condition walk,
  whose loop body is `fcdLoop`;
* `run` (pass.cpp:227-262) — the driver loop over the module.

The C++ recursion / while loops have no visited set and can diverge on
cyclic def-use graphs, so every walk takes a fuel argument; `none`
means the fuel ran out (the C++ would still be running).  Undefined
behaviour in the C++ (dereferencing a null `dyn_cast` result, reading
`getOperand(0)` of an instruction without operands) is made explicit as
a `WalkError`.  The `errs()` stream output is abstracted into entry
lists: one entry per classification line the pass prints.
-/

namespace SkeletonPass

/-- Identity of an LLVM value in the def-use graph. -/
abbrev NodeId := Nat

/-- A debug location as attached by clang: `DILocation` carries a
directory, a filename, a line and a column. -/
structure DILocation where
  directory : String
  filename : String
  line : Nat
  col : Nat
deriving DecidableEq, Repr

/-- The instruction classes the pass's `dyn_cast`/`isa` tests distinguish. -/
inductive InstrKind where
  | alloca : InstrKind
  | store : InstrKind
  | load : InstrKind
  | icmp : InstrKind
  | binaryOp : InstrKind
  | phi (blocks : List String) : InstrKind
  | branch (isConditional : Bool) : InstrKind
  | call (callee : String) : InstrKind
  | dbgDeclare : InstrKind
  | other : InstrKind
deriving DecidableEq, Repr

/-- What the pass can observe about one `llvm::Value`. For an
instruction, `ops` is the operand list (`Instruction::operands`), in
order; for a phi the operands are the incoming values and the kind
carries the incoming block names (`PHINode` stores blocks out of line). -/
inductive ValueDesc where
  | argument (name : String) : ValueDesc
  | globalVar (name : String) : ValueDesc
  | constant : ValueDesc
  | function (name : String) : ValueDesc
  | instr (ik : InstrKind) (ops : List NodeId)
      (debugLoc : Option DILocation) (dbgVar : Option String) : ValueDesc
deriving DecidableEq, Repr

/-- The def-use graph view: every node id resolves to a value description. -/
abbrev Graph := NodeId → ValueDesc

/-- Point update of a graph at one node. -/
def updateGraph (g : Graph) (v : NodeId) (d : ValueDesc) : Graph :=
  fun w => if w = v then d else g w

/-! ## Location resolution (`printSourceLocation`, pass.cpp:13-25) -/

/-- What `printSourceLocation` prints for one instruction. -/
inductive LocOutput where
  | srcLoc (file : String) (line col : Nat) : LocOutput
  | varName (n : String) : LocOutput
  | silent : LocOutput
  | noDebugInfo : LocOutput
deriving DecidableEq, Repr

/-- pass.cpp:13-25. If the instruction has a `DILocation`, print its
filename, line and column (the directory is never read); otherwise, a
`DbgDeclareInst` with a variable prints the variable's name (and prints
nothing when the variable is missing); any other instruction prints
"[No debug info available]". -/
def printSourceLocation (ik : InstrKind) (dl : Option DILocation)
    (dv : Option String) : LocOutput :=
  match dl with
  | some l => .srcLoc l.filename l.line l.col
  | none =>
    match ik, dv with
    | .dbgDeclare, some n => .varName n
    | .dbgDeclare, none => .silent
    | _, _ => .noDebugInfo

/-- Modelled from the spec: section 4.3 says resolution, when a location
is present, "always yields (directory, file, line, column) as a unit".
Used only to compare the spec's contract with the code's output. -/
def specResolveLocation (dl : Option DILocation) :
    Option (String × String × Nat × Nat) :=
  dl.map (fun l => (l.directory, l.filename, l.line, l.col))

/-! ## The backward origin walk (`traceVariableOrigin`, pass.cpp:158-197) -/

/-- One classification line printed by `traceVariableOrigin`. -/
inductive Entry where
  | fromArgument (v : NodeId) : Entry
  | fromAlloca (v : NodeId) : Entry
  | fromGlobal (v : NodeId) : Entry
  | fromStore (v : NodeId) : Entry
  | definedByInstr (v : NodeId) : Entry
  | operand (o : NodeId) : Entry
deriving DecidableEq, Repr

/-- Sequential trace of a list of operands (the `for (Use &U ...)` loop
of pass.cpp:191-195): each operand contributes its "Operand:" line
followed by its own recursive trace.  `tr` is the recursive trace at the
remaining fuel; a `none` anywhere (fuel exhausted in a sub-trace) makes
the whole loop `none`. -/
def traceOps (tr : NodeId → Option (List Entry)) : List NodeId → Option (List Entry)
  | [] => some []
  | o :: os => do
    let t ← tr o
    let rest ← traceOps tr os
    pure (Entry.operand o :: t ++ rest)

/-- pass.cpp:158-197, fuel-indexed.  The `dyn_cast` chain in source
order: `Argument`, `AllocaInst`, `GlobalVariable` and `StoreInst` each
print one line and return; any other `Instruction` prints its line and
recurses into every operand; a value matching none of the casts (a plain
constant, a function, ...) falls through the whole chain and the
function returns having printed nothing. `none` = fuel exhausted, i.e.
the C++ recursion is still running. -/
def traceVariableOrigin (g : Graph) : Nat → NodeId → Option (List Entry)
  | 0 => fun _ => none
  | fuel + 1 => fun v =>
    match g v with
    | .argument _ => some [Entry.fromArgument v]
    | .instr .alloca _ _ _ => some [Entry.fromAlloca v]
    | .globalVar _ => some [Entry.fromGlobal v]
    | .instr .store _ _ _ => some [Entry.fromStore v]
    | .instr _ ops _ _ =>
      (traceOps (fun o => traceVariableOrigin g fuel o) ops).map
        (fun ts => Entry.definedByInstr v :: ts)
    | _ => some []

/-! ## The operand-0 declaration walk (`traceVariableDeclaration`, pass.cpp:104-156) -/

/-- Undefined behaviour the C++ walks can run into. `nullDeref` models
dereferencing the null result of `dyn_cast<Instruction>` (pass.cpp:150);
`operandOutOfRange` models `getOperand(0)` on an instruction with no
operands (pass.cpp:96) and `getOperand(i)` past the operand count. -/
inductive WalkError where
  | nullDeref : WalkError
  | operandOutOfRange : WalkError
deriving DecidableEq, Repr

/-- One line printed by `traceVariableDeclaration`. -/
inductive DeclEntry where
  | isArgument (n : String) : DeclEntry
  | tracingFrom (v : NodeId) : DeclEntry
  | declaredAlloca (v : NodeId) : DeclEntry
  | storeFound (sv p : NodeId) : DeclEntry
  | opStep (o : NodeId) : DeclEntry
deriving DecidableEq, Repr

/-- The `while (instr)` loop of pass.cpp:123-154.  An alloca or a store
prints a line and returns; otherwise, with at least one operand, the
walk moves to `dyn_cast<Instruction>(getOperand(0))` and unconditionally
prints `*instr` (pass.cpp:150) — when operand 0 is not an instruction
that dereferences a null pointer, modelled as `.error .nullDeref`.  With
no operands the loop breaks.  `none` = fuel exhausted. -/
def declWalk (g : Graph) : Nat → NodeId → Option (Except WalkError (List DeclEntry))
  | 0 => fun _ => none
  | fuel + 1 => fun v =>
    match g v with
    | .instr .alloca _ _ _ => some (.ok [DeclEntry.declaredAlloca v])
    | .instr .store ops _ _ =>
      match ops.get? 0, ops.get? 1 with
      | some sv, some p => some (.ok [DeclEntry.storeFound sv p])
      | _, _ => some (.error .operandOutOfRange)
    | .instr _ ops _ _ =>
      match ops.get? 0 with
      | none => some (.ok [])
      | some o =>
        match g o with
        | .instr _ _ _ _ =>
          (declWalk g fuel o).map (Except.map (fun t => DeclEntry.opStep o :: t))
        | _ => some (.error .nullDeref)
    | _ => some (.ok [])

/-- pass.cpp:104-156.  An `Argument` prints its line and returns; an
`Instruction` prints "Tracing back from" and enters the `declWalk`
loop; any other value prints nothing. -/
def traceVariableDeclaration (g : Graph) (fuel : Nat) (v : NodeId) :
    Option (Except WalkError (List DeclEntry)) :=
  match g v with
  | .argument n => some (.ok [DeclEntry.isArgument n])
  | .instr _ _ _ _ =>
    (declWalk g fuel v).map (Except.map (fun t => DeclEntry.tracingFrom v :: t))
  | _ => some (.ok [])

/-! ## The condition walk (`findConditionDefinition`, pass.cpp:68-101) -/

/-- One line printed by `findConditionDefinition`. -/
inductive CondEntry where
  | condDefinedAt (v : NodeId) : CondEntry
  | foundDefinition (v : NodeId) : CondEntry
  | phiIncoming (blk : String) (o : NodeId) : CondEntry
  | notFromInstruction : CondEntry
deriving DecidableEq, Repr

/-- The `while (instr)` loop of pass.cpp:75-97.  A binary operation, an
`ICmpInst` or a `LoadInst` is reported as the found definition; a
`PHINode` reports every (incoming block, incoming value) pair; otherwise
the walk reads `getOperand(0)` with no operand-count guard (pass.cpp:96)
— modelled as `.error .operandOutOfRange` when there is none — and
continues at that operand when it is an instruction, else the loop
condition sees the null `dyn_cast` result and exits. -/
def fcdLoop (g : Graph) : Nat → NodeId → Option (Except WalkError (List CondEntry))
  | 0 => fun _ => none
  | fuel + 1 => fun v =>
    match g v with
    | .instr ik ops _ _ =>
      if ik = .binaryOp || ik = .icmp || ik = .load then
        some (.ok [CondEntry.foundDefinition v])
      else
        match ik with
        | .phi blks =>
          some (.ok ((blks.zip ops).map (fun bo => CondEntry.phiIncoming bo.1 bo.2)))
        | _ =>
          match ops.get? 0 with
          | none => some (.error .operandOutOfRange)
          | some o =>
            match g o with
            | .instr _ _ _ _ => fcdLoop g fuel o
            | _ => some (.ok [])
    | _ => some (.ok [])

/-- pass.cpp:68-101.  A condition that is an instruction prints
"Condition defined at" and enters the `fcdLoop`; anything else prints
"Condition is not derived from an instruction". -/
def findConditionDefinition (g : Graph) (fuel : Nat) (c : NodeId) :
    Option (Except WalkError (List CondEntry)) :=
  match g c with
  | .instr _ _ _ _ =>
    (fcdLoop g fuel c).map (Except.map (fun t => CondEntry.condDefinedAt c :: t))
  | _ => some (.ok [CondEntry.notFromInstruction])

/-! ## The driver loop (`run`, pass.cpp:227-262) -/

/-- The module as the driver sees it: functions of blocks of instruction
nodes, over one shared graph view. -/
structure BasicBlock where
  bbName : String
  insts : List NodeId
deriving DecidableEq, Repr

structure Func where
  funcName : String
  blocks : List BasicBlock
deriving DecidableEq, Repr

structure Module where
  graph : Graph
  funcs : List Func

/-- The analysis-preservation report a module pass returns. -/
inductive PreservedAnalyses where
  | all : PreservedAnalyses
  | nothing : PreservedAnalyses
deriving DecidableEq, Repr

/-- One event on the driver's output stream. -/
inductive RunEvent where
  | seeFunction (n : String) : RunEvent
  | seeBlock (n : String) : RunEvent
  | analyzing (i : NodeId) : RunEvent
  | branchCondSeed (c : NodeId) (t : Option (List Entry)) : RunEvent
  | uncondBranch (i : NodeId) : RunEvent
deriving DecidableEq, Repr

/-- pass.cpp:234-257, the per-instruction body: print "analyzing uses
of"; a conditional `BranchInst` gets its condition (operand 0) traced
with `traceVariableOrigin`; an unconditional branch prints its
successor; everything else is only printed. -/
def runInstr (g : Graph) (fuel : Nat) (i : NodeId) : List RunEvent :=
  RunEvent.analyzing i ::
    match g i with
    | .instr (.branch true) ops _ _ =>
      match ops.head? with
      | some c => [RunEvent.branchCondSeed c (traceVariableOrigin g fuel c)]
      | none => []
    | .instr (.branch false) _ _ _ => [RunEvent.uncondBranch i]
    | _ => []

/-- One instruction step of `run`: the body performs no IR mutation
(only `errs()` output and read-only queries), so the module state passes
through unchanged. -/
def runOneInst (fuel : Nat) (m : Module) (i : NodeId) : Module × List RunEvent :=
  (m, runInstr m.graph fuel i)

def runInsts (fuel : Nat) : Module → List NodeId → Module × List RunEvent
  | m, [] => (m, [])
  | m, i :: is =>
    let p := runOneInst fuel m i
    let q := runInsts fuel p.1 is
    (q.1, p.2 ++ q.2)

def runBlock (fuel : Nat) (m : Module) (bb : BasicBlock) : Module × List RunEvent :=
  let p := runInsts fuel m bb.insts
  (p.1, RunEvent.seeBlock bb.bbName :: p.2)

def runBlocks (fuel : Nat) : Module → List BasicBlock → Module × List RunEvent
  | m, [] => (m, [])
  | m, b :: bs =>
    let p := runBlock fuel m b
    let q := runBlocks fuel p.1 bs
    (q.1, p.2 ++ q.2)

def runFunc (fuel : Nat) (m : Module) (f : Func) : Module × List RunEvent :=
  let p := runBlocks fuel m f.blocks
  (p.1, RunEvent.seeFunction f.funcName :: p.2)

def runFuncs (fuel : Nat) : Module → List Func → Module × List RunEvent
  | m, [] => (m, [])
  | m, f :: fs =>
    let p := runFunc fuel m f
    let q := runFuncs fuel p.1 fs
    (q.1, p.2 ++ q.2)

/-- What `SkeletonPass::run` leaves behind: the diagnostic log, the
module after the scan, and the `PreservedAnalyses` report. -/
structure RunResult where
  log : List RunEvent
  modOut : Module
  preserved : PreservedAnalyses

/-- pass.cpp:227-262: iterate every function, block and instruction,
then return `PreservedAnalyses::all()`. -/
def run (fuel : Nat) (m : Module) : RunResult :=
  let p := runFuncs fuel m m.funcs
  ⟨p.2, p.1, PreservedAnalyses.all⟩

/-- The seeds actually handed to `traceVariableOrigin` on a log. -/
def seedsOfLog : List RunEvent → List NodeId
  | [] => []
  | RunEvent.branchCondSeed c _ :: es => c :: seedsOfLog es
  | _ :: es => seedsOfLog es

/-- All trace seeds of one driver run. -/
def driverSeeds (fuel : Nat) (m : Module) : List NodeId :=
  seedsOfLog (run fuel m).log

/-- All instruction nodes of a module, in driver visitation order. -/
def moduleInsts (m : Module) : List NodeId :=
  (m.funcs.map (fun f => (f.blocks.map BasicBlock.insts).flatten)).flatten

/-- The condition of a conditional-branch instruction, if `i` is one. -/
def condOf (g : Graph) (i : NodeId) : Option NodeId :=
  match g i with
  | .instr (.branch true) ops _ _ => ops.head?
  | _ => none

/-! ## Concrete graphs for witnesses and counterexamples -/

/-- A loop counter: `%0 = phi [%1, loop], [2, entry]`, `%1 = add %0, 3`
— a def-use cycle through the phi, as any `for` loop produces. -/
def gCycle : Graph := fun v =>
  match v with
  | 0 => .instr (.phi ["loop", "entry"]) [1, 2] none none
  | 1 => .instr .binaryOp [0, 3] none none
  | _ => .constant

/-- `%0 = call i32 @scanf(%1)` with `%1` an argument; node 2 is the
callee `@scanf` itself (the last call operand). -/
def gScanf : Graph := fun v =>
  match v with
  | 0 => .instr (.call "scanf") [1, 2] none none
  | 1 => .argument "x"
  | 2 => .function "scanf"
  | _ => .constant

/-- `%0 = phi [%1, b1], [%1, b2]`: two incoming edges carrying the same
value. -/
def gPhiDup : Graph := fun v =>
  match v with
  | 0 => .instr (.phi ["b1", "b2"]) [1, 1] none none
  | 1 => .argument "x"
  | _ => .constant

/-- `%0 = icmp` over two raw constants. -/
def gConstCmp : Graph := fun v =>
  match v with
  | 0 => .instr .icmp [1, 2] none none
  | _ => .constant

/-- `%0 = icmp sgt i32 %argc, 1`: operand 0 is an `Argument`, so
`dyn_cast<Instruction>` of it is null. -/
def gNullCmp : Graph := fun v =>
  match v with
  | 0 => .instr .icmp [1, 2] none none
  | 1 => .argument "argc"
  | _ => .constant

/-- A zero-operand instruction (e.g. a `landingpad`) used as condition. -/
def gNoOps : Graph := fun v =>
  match v with
  | 0 => .instr .other [] none none
  | _ => .constant

/-- `store %1, %2` into an alloca. -/
def gStore : Graph := fun v =>
  match v with
  | 0 => .instr .store [1, 2] none none
  | 2 => .instr .alloca [] none none
  | _ => .constant

/-- Every node an argument (for the terminal-seed witness). -/
def gArg : Graph := fun _ => .argument "p"

/-- A module whose single instruction is the `scanf` call of `gScanf`
(no branch anywhere). -/
def scanfModule : Module :=
  { graph := gScanf, funcs := [⟨"main", [⟨"entry", [0]⟩]⟩] }

/-! ## Helper lemmas -/

/-- `traceOps` only depends on the values of the recursive trace. -/
theorem traceOps_congr (f f2 : NodeId → Option (List Entry))
    (h : ∀ o, f o = f2 o) (ops : List NodeId) :
    traceOps f ops = traceOps f2 ops := by
  induction ops with
  | nil => rfl
  | cons o os ih => simp [traceOps, h o, ih]

/-- When every operand's sub-trace succeeds, the operand loop yields one
"Operand" header plus that sub-trace, per operand, in operand order. -/
theorem traceOps_eq_of_forall (tr : NodeId → Option (List Entry)) (ops : List NodeId)
    (ts : NodeId → List Entry) (h : ∀ o ∈ ops, tr o = some (ts o)) :
    traceOps tr ops = some ((ops.map (fun o => Entry.operand o :: ts o)).flatten) := by
  induction ops with
  | nil => rfl
  | cons o os ih =>
    simp [traceOps, h o (by simp), ih (fun x hx => h x (by simp [hx]))]

/-! ## Theorems for the claims -/

/-- C1: the spec demands that tracing a seed terminates on every def-use
graph, including a cycle through a phi node, with no re-expansion of a
processed node.  The code has no visited set at all, and on the phi-fed
loop counter `gCycle` the recursion `0 → 1 → 0 → ...` never returns:
for every fuel bound the walk is still running (`none`), both from the
phi and from the add feeding it. -/
theorem trace_cycle_diverges (fuel : Nat) :
    traceVariableOrigin gCycle fuel 0 = none ∧
    traceVariableOrigin gCycle fuel 1 = none := by
  induction fuel with
  | zero => exact ⟨rfl, rfl⟩
  | succ n ih =>
    refine ⟨?_, ?_⟩ <;> simp [traceVariableOrigin, gCycle, traceOps, ih.1, ih.2]

/-- C3: tracing a seed that is a function argument, a local alloca or a
global variable prints exactly one classification line for that node and
recurses into nothing: the result is independent of the fuel, so no
operand is ever expanded. -/
theorem trace_terminal_short_circuit (g : Graph) (fuel : Nat) (v : NodeId)
    (h : (∃ n, g v = .argument n) ∨
         (∃ ops dl dv, g v = .instr .alloca ops dl dv) ∨
         (∃ n, g v = .globalVar n)) :
    (traceVariableOrigin g (fuel + 1) v = some [Entry.fromArgument v] ∨
     traceVariableOrigin g (fuel + 1) v = some [Entry.fromAlloca v] ∨
     traceVariableOrigin g (fuel + 1) v = some [Entry.fromGlobal v]) ∧
    ∀ fl, traceVariableOrigin g (fl + 1) v = traceVariableOrigin g (fuel + 1) v := by
  rcases h with ⟨n, h⟩ | ⟨ops, dl, dv, h⟩ | ⟨n, h⟩ <;>
    exact ⟨by simp [traceVariableOrigin, h], fun fl => by simp [traceVariableOrigin, h]⟩

/-- Witness for C3 at a concrete argument seed. -/
theorem trace_terminal_short_circuit_witness :
    (traceVariableOrigin gArg 1 0 = some [Entry.fromArgument 0] ∨
     traceVariableOrigin gArg 1 0 = some [Entry.fromAlloca 0] ∨
     traceVariableOrigin gArg 1 0 = some [Entry.fromGlobal 0]) ∧
    traceVariableOrigin gArg 4 0 = traceVariableOrigin gArg 1 0 :=
  ⟨(trace_terminal_short_circuit gArg 0 0 (Or.inl ⟨"p", rfl⟩)).1,
   (trace_terminal_short_circuit gArg 0 0 (Or.inl ⟨"p", rfl⟩)).2 3⟩

/-- C4: tracing a phi seed recurses into each of its incoming values in
order, producing one sub-path per incoming value, duplicates included;
and `findConditionDefinition`'s loop reports one incoming line per
(incoming block, incoming value) pair. -/
theorem trace_phi_fanout (g : Graph) (fuel : Nat) (v : NodeId)
    (blks : List String) (ops : List NodeId)
    (dl : Option DILocation) (dv : Option String) (ts : NodeId → List Entry)
    (h : g v = .instr (.phi blks) ops dl dv)
    (hts : ∀ o ∈ ops, traceVariableOrigin g fuel o = some (ts o)) :
    traceVariableOrigin g (fuel + 1) v =
      some (Entry.definedByInstr v ::
        (ops.map (fun o => Entry.operand o :: ts o)).flatten) ∧
    fcdLoop g (fuel + 1) v =
      some (.ok ((blks.zip ops).map (fun bo => CondEntry.phiIncoming bo.1 bo.2))) := by
  constructor
  · simp [traceVariableOrigin, h, traceOps_eq_of_forall _ _ ts hts]
  · simp [fcdLoop, h]

/-- Witness for C4: a phi with the same incoming value on both edges
still yields two sub-paths. -/
theorem trace_phi_fanout_witness :
    traceVariableOrigin gPhiDup 2 0 =
      some (Entry.definedByInstr 0 ::
        (([1, 1] : List NodeId).map
          (fun o => Entry.operand o :: [Entry.fromArgument 1])).flatten) ∧
    fcdLoop gPhiDup 2 0 =
      some (.ok (((["b1", "b2"].zip ([1, 1] : List NodeId)).map
        (fun bo => CondEntry.phiIncoming bo.1 bo.2))) ) :=
  trace_phi_fanout gPhiDup 1 0 ["b1", "b2"] [1, 1] none none
    (fun _ => [Entry.fromArgument 1]) rfl (by decide)

/-- C5 counterexample: a raw constant is not classified "constant" — it
falls through the whole `dyn_cast` chain and contributes no entry at
all, so the operands of `icmp const, const` leave no classification
behind them. -/
theorem trace_constant_counterexample :
    gConstCmp 1 = ValueDesc.constant ∧
    traceVariableOrigin gConstCmp 1 1 = some [] ∧
    traceVariableOrigin gConstCmp 2 0 =
      some [Entry.definedByInstr 0, Entry.operand 1, Entry.operand 2] :=
  ⟨rfl, rfl, rfl⟩

/-- C5 as amended: a node outside the chain's known set (a raw constant,
a function, ...) is skipped silently — the trace returns with no entry
and no error for it. -/
theorem trace_skips_unclassified (g : Graph) (fuel : Nat) (v : NodeId)
    (h : g v = .constant ∨ ∃ n, g v = .function n) :
    traceVariableOrigin g (fuel + 1) v = some [] := by
  rcases h with h | ⟨n, h⟩ <;> simp [traceVariableOrigin, h]

/-- Witness for the amended C5 at the constant operand of `gConstCmp`. -/
theorem trace_skips_unclassified_witness :
    traceVariableOrigin gConstCmp 3 1 = some [] :=
  trace_skips_unclassified gConstCmp 2 1 (Or.inl rfl)

/-- C6: a store is terminal for its trace branch in both walks —
`traceVariableOrigin` prints its one line and returns, and the
declaration walk records the stored value and the destination pointer
and returns; neither operand is expanded (the result is the same for
every fuel). -/
theorem store_terminal (g : Graph) (fuel : Nat) (v sv p : NodeId)
    (dl : Option DILocation) (dv : Option String)
    (h : g v = .instr .store [sv, p] dl dv) :
    traceVariableOrigin g (fuel + 1) v = some [Entry.fromStore v] ∧
    traceVariableDeclaration g (fuel + 1) v =
      some (.ok [DeclEntry.tracingFrom v, DeclEntry.storeFound sv p]) := by
  constructor
  · simp [traceVariableOrigin, h]
  · simp [traceVariableDeclaration, h, declWalk, Except.map]

/-- Witness for C6 at the concrete store of `gStore`. -/
theorem store_terminal_witness :
    traceVariableOrigin gStore 5 0 = some [Entry.fromStore 0] ∧
    traceVariableDeclaration gStore 5 0 =
      some (.ok [DeclEntry.tracingFrom 0, DeclEntry.storeFound 1 2]) :=
  store_terminal gStore 4 0 1 2 none none rfl

/-- Renaming the callee of a call node changes nothing anywhere in the
backward walk: `traceVariableOrigin` never reads a callee name. -/
theorem trace_callee_rename (g : Graph) (v : NodeId) (nm nm2 : String)
    (ops : List NodeId) (dl : Option DILocation) (dv : Option String)
    (h : g v = .instr (.call nm) ops dl dv) :
    ∀ fl w, traceVariableOrigin (updateGraph g v (.instr (.call nm2) ops dl dv)) fl w
      = traceVariableOrigin g fl w := by
  intro fl
  induction fl with
  | zero => intro w; rfl
  | succ n ih =>
    intro w
    rcases eq_or_ne w v with hw | hw
    · subst hw
      have hops := traceOps_congr _ _ ih ops
      simp [traceVariableOrigin, updateGraph, h, hops]
    · have hg2 : updateGraph g v (ValueDesc.instr (.call nm2) ops dl dv) w = g w :=
        if_neg hw
      cases hgw : g w with
      | argument nm3 => simp [traceVariableOrigin, hg2, hgw]
      | globalVar nm3 => simp [traceVariableOrigin, hg2, hgw]
      | constant => simp [traceVariableOrigin, hg2, hgw]
      | function nm3 => simp [traceVariableOrigin, hg2, hgw]
      | instr ik ops2 dl2 dv2 =>
        have hops2 := traceOps_congr _ _ ih ops2
        cases ik <;> simp [traceVariableOrigin, hg2, hgw, hops2]

/-- C2 counterexample: the backward trace reaching the `scanf` call of
`gScanf` records it with the same generic "defined by instruction" entry
as any computation and keeps tracing its operands — the argument operand
is expanded down to its own origin, so the call is neither marked as a
tainted external input nor treated as an unexpandable opaque result. -/
theorem trace_call_counterexample :
    traceVariableOrigin gScanf 2 0 =
      some [Entry.definedByInstr 0, Entry.operand 1, Entry.fromArgument 1,
        Entry.operand 2] ∧
    traceVariableOrigin gScanf 2 0 ≠ some [Entry.definedByInstr 0] :=
  ⟨rfl, by decide⟩

/-- C2 as amended: a call node is traced exactly like any other
non-terminal instruction — one generic entry, then every operand
(arguments and the callee operand alike) is traced further — and the
callee's name is never consulted: renaming it changes no trace anywhere
in the graph. -/
theorem trace_call_ignores_callee (g : Graph) (fuel : Nat) (v : NodeId)
    (nm nm2 : String) (ops : List NodeId)
    (dl : Option DILocation) (dv : Option String)
    (h : g v = .instr (.call nm) ops dl dv) :
    traceVariableOrigin g (fuel + 1) v =
      (traceOps (fun o => traceVariableOrigin g fuel o) ops).map
        (fun ts => Entry.definedByInstr v :: ts) ∧
    ∀ fl w, traceVariableOrigin (updateGraph g v (.instr (.call nm2) ops dl dv)) fl w
      = traceVariableOrigin g fl w :=
  ⟨by simp [traceVariableOrigin, h], trace_callee_rename g v nm nm2 ops dl dv h⟩

/-- Witness for the amended C2 at the concrete `scanf` call. -/
theorem trace_call_ignores_callee_witness :
    traceVariableOrigin gScanf 2 0 =
      (traceOps (fun o => traceVariableOrigin gScanf 1 o) [1, 2]).map
        (fun ts => Entry.definedByInstr 0 :: ts) ∧
    traceVariableOrigin
        (updateGraph gScanf 0 (.instr (.call "getline") [1, 2] none none)) 2 1
      = traceVariableOrigin gScanf 2 1 :=
  ⟨(trace_call_ignores_callee gScanf 1 0 "scanf" "getline" [1, 2] none none rfl).1,
   (trace_call_ignores_callee gScanf 1 0 "scanf" "getline" [1, 2] none none rfl).2 2 1⟩

/-- C7 counterexample: with a location attached, `printSourceLocation`
prints only filename, line and column — two locations differing only in
their directory produce the very same output, while the spec's
resolve contract distinguishes them; and a debug-declare with no
location yields the variable's name, not "no debug info available". -/
theorem location_directory_counterexample :
    printSourceLocation .icmp (some ⟨"dirA", "f.c", 3, 4⟩) none
      = printSourceLocation .icmp (some ⟨"dirB", "f.c", 3, 4⟩) none ∧
    specResolveLocation (some ⟨"dirA", "f.c", 3, 4⟩)
      ≠ specResolveLocation (some ⟨"dirB", "f.c", 3, 4⟩) ∧
    printSourceLocation .dbgDeclare none (some "x") = .varName "x" :=
  ⟨rfl, by decide, rfl⟩

/-- C7 as amended: location resolution is total — a present location
yields (file, line, column) as a unit, the directory is never read, and
a node without a debug record that is not a debug-declare yields the
"no debug info available" outcome. -/
theorem printSourceLocation_cases (ik : InstrKind) (dv : Option String) :
    (∀ l : DILocation, printSourceLocation ik (some l) dv
        = .srcLoc l.filename l.line l.col) ∧
    (ik ≠ .dbgDeclare → printSourceLocation ik none dv = .noDebugInfo) := by
  constructor
  · intro l; rfl
  · intro hik
    cases ik <;> first | (cases dv <;> rfl) | exact absurd rfl hik

/-- Witness for the amended C7 at a concrete compare instruction. -/
theorem printSourceLocation_cases_witness :
    printSourceLocation .icmp (some ⟨"dir", "f.c", 3, 4⟩) none
      = .srcLoc "f.c" 3 4 ∧
    printSourceLocation .icmp none none = .noDebugInfo :=
  ⟨(printSourceLocation_cases .icmp none).1 ⟨"dir", "f.c", 3, 4⟩,
   (printSourceLocation_cases .icmp none).2 (by decide)⟩

/-- C10: the backward step to operand 0 is not total.  In
`traceVariableDeclaration`, tracing `icmp sgt %argc, 1` (operand 0 an
argument) dereferences the null result of `dyn_cast<Instruction>`
(pass.cpp:150); in `findConditionDefinition`, a zero-operand condition
instruction makes the walk read `getOperand(0)` out of range
(pass.cpp:96). -/
theorem walk_null_deref :
    traceVariableDeclaration gNullCmp 3 0 = some (.error .nullDeref) ∧
    findConditionDefinition gNoOps 3 0 = some (.error .operandOutOfRange) :=
  ⟨rfl, rfl⟩

/-- The per-instruction loop hands the module through untouched. -/
theorem runInsts_fst (fuel : Nat) (m : Module) (is : List NodeId) :
    (runInsts fuel m is).1 = m := by
  induction is with
  | nil => rfl
  | cons i is ih => simp [runInsts, runOneInst, ih]

/-- The block loop hands the module through untouched. -/
theorem runBlocks_fst (fuel : Nat) (m : Module) (bs : List BasicBlock) :
    (runBlocks fuel m bs).1 = m := by
  induction bs generalizing m with
  | nil => rfl
  | cons b bs ih => simp [runBlocks, runBlock, runInsts_fst, ih]

/-- The function loop hands the module through untouched. -/
theorem runFuncs_fst (fuel : Nat) (m : Module) (fs : List Func) :
    (runFuncs fuel m fs).1 = m := by
  induction fs generalizing m with
  | nil => rfl
  | cons f fs ih => simp [runFuncs, runFunc, runBlocks_fst, ih]

/-- Trace seeds of a concatenated log. -/
theorem seedsOfLog_append (a b : List RunEvent) :
    seedsOfLog (a ++ b) = seedsOfLog a ++ seedsOfLog b := by
  induction a with
  | nil => rfl
  | cons e es ih => cases e <;> simp [seedsOfLog, ih]

/-- One instruction seeds the trace exactly when it is a conditional
branch, and then with its condition operand. -/
theorem seedsOfLog_runInstr (g : Graph) (fuel : Nat) (i : NodeId) :
    seedsOfLog (runInstr g fuel i) = (condOf g i).toList := by
  unfold runInstr condOf
  cases hg : g i with
  | instr ik ops dl dv =>
    cases ik with
    | branch b =>
      cases b
      · simp [seedsOfLog]
      · cases hh : ops.head? <;> simp [seedsOfLog, hh]
    | _ => simp [seedsOfLog]
  | _ => simp [seedsOfLog]

/-- Seeds collected over an instruction list. -/
theorem seeds_runInsts (fuel : Nat) (m : Module) (is : List NodeId) :
    seedsOfLog (runInsts fuel m is).2 = is.filterMap (condOf m.graph) := by
  induction is with
  | nil => rfl
  | cons i is ih =>
    simp only [runInsts, runOneInst, seedsOfLog_append, seedsOfLog_runInstr, ih,
      List.filterMap_cons]
    cases condOf m.graph i <;> simp

/-- Seeds collected over a block list. -/
theorem seeds_runBlocks (fuel : Nat) (m : Module) (bs : List BasicBlock) :
    seedsOfLog (runBlocks fuel m bs).2 =
      ((bs.map BasicBlock.insts).flatten).filterMap (condOf m.graph) := by
  induction bs generalizing m with
  | nil => rfl
  | cons b bs ih =>
    have h1 : (runBlock fuel m b).1 = m := by simp [runBlock, runInsts_fst]
    simp [runBlocks, seedsOfLog_append, h1, ih, runBlock, seedsOfLog,
      seeds_runInsts, List.filterMap_append, runInsts_fst]

/-- Seeds collected over a function list. -/
theorem seeds_runFuncs (fuel : Nat) (m : Module) (fs : List Func) :
    seedsOfLog (runFuncs fuel m fs).2 =
      ((fs.map (fun f => (f.blocks.map BasicBlock.insts).flatten)).flatten).filterMap
        (condOf m.graph) := by
  induction fs generalizing m with
  | nil => rfl
  | cons f fs ih =>
    have h1 : (runFunc fuel m f).1 = m := by simp [runFunc, runBlocks_fst]
    simp [runFuncs, seedsOfLog_append, h1, ih, runFunc, seedsOfLog,
      seeds_runBlocks, List.filterMap_append, runBlocks_fst]

/-- The driver's seed stream, in closed form. -/
theorem driverSeeds_eq (fuel : Nat) (m : Module) :
    driverSeeds fuel m = (moduleInsts m).filterMap (condOf m.graph) := by
  simp [driverSeeds, run, moduleInsts, seeds_runFuncs]

/-- C8 counterexample: a module whose only instruction is a call to
`scanf` carrying an argument.  The driver's loop still visits the
instruction, but it hands no seed whatsoever to `traceVariableOrigin`:
calls to input-producing routines are never detected and their
arguments are never traced. -/
theorem driver_ignores_input_calls :
    scanfModule.graph 0 = ValueDesc.instr (.call "scanf") [1, 2] none none ∧
    RunEvent.analyzing 0 ∈ (run 4 scanfModule).log ∧
    driverSeeds 4 scanfModule = [] :=
  ⟨rfl, by decide, rfl⟩

/-- C8 as amended: over every function, block and instruction, the
driver invokes the trace exactly on the condition values of conditional
branch instructions — nothing else, in particular no call argument, ever
becomes a seed. -/
theorem driver_seeds_characterization (fuel : Nat) (m : Module) (c : NodeId) :
    c ∈ driverSeeds fuel m ↔
      ∃ i ∈ moduleInsts m, condOf m.graph i = some c := by
  rw [driverSeeds_eq]
  simp [List.mem_filterMap]

/-- C9: the pass only reads the module — the module coming out of `run`
is the module that went in, and the pass reports that it preserves all
analyses. -/
theorem run_preserves_module (fuel : Nat) (m : Module) :
    (run fuel m).modOut = m ∧ (run fuel m).preserved = PreservedAnalyses.all :=
  ⟨runFuncs_fst fuel m m.funcs, rfl⟩

end SkeletonPass
